import Mathlib

/-!
Verification of the patch-generation agent in `src/agent/run_agent.py`.

Strings from the Python source are embedded as `List Char`; the extractor,
validator, retry loop and repair loop are translated directly from the
source.  External collaborators (the model backend and the git
subprocesses) are abstracted as oracles recording an event trace, so that
control-flow and worktree-discipline properties can be stated over the
traces the loop produces.
-/

set_option maxRecDepth 8000

namespace TrainAI

/-- Whitespace characters removed by the Python `str.strip()` call on
line 116 of `run_agent.py` (ASCII and Latin-1 part of the Python
whitespace set; the diff texts handled here contain only these). -/
def pySpace (c : Char) : Bool :=
  c == ' ' || c == '\t' || c == '\n' || c == '\r' || c == '\x0b' || c == '\x0c' ||
  c == '\x1c' || c == '\x1d' || c == '\x1e' || c == '\x1f' || c == '\x85' || c == '\xa0'

/-- Python `s.strip()`: drop whitespace from both ends. -/
def pyStrip (s : List Char) : List Char :=
  ((s.dropWhile pySpace).reverse.dropWhile pySpace).reverse

/-- The pattern `pat` matches at the head of `s` (character-wise). -/
def startsWithTok : List Char → List Char → Bool
  | [], _ => true
  | _ :: _, [] => false
  | p :: ps, c :: cs => p == c && startsWithTok ps cs

/-- Python substring test `pat in s`. -/
def pyContains (pat : List Char) : List Char → Bool
  | [] => pat.isEmpty
  | c :: rest => startsWithTok pat (c :: rest) || pyContains pat rest

/-- Fuel-bounded worker for `pyCount`; with fuel at least `s.length` and a
nonempty pattern it computes the exact non-overlapping occurrence count. -/
def pyCountAux (pat : List Char) : List Char → Nat → Nat
  | _, 0 => 0
  | [], _ + 1 => 0
  | c :: rest, fuel + 1 =>
    if startsWithTok pat (c :: rest) then
      1 + pyCountAux pat ((c :: rest).drop pat.length) fuel
    else
      pyCountAux pat rest fuel

/-- Python `s.count(pat)`: non-overlapping occurrences scanned from the
left (used with the nonempty patterns `<Project` and `</Project>`). -/
def pyCount (pat s : List Char) : Nat := pyCountAux pat s s.length

/-- The diff-start marker of the regex on line 112: `diff --git`. -/
def marker : List Char := "diff --git".data

/-- Open marker of the structural check on line 119: `<Project`. -/
def openTag : List Char := "<Project".data

/-- Close marker of the structural check on line 120: `</Project>`. -/
def closeTag : List Char := "</Project>".data

/-- Semantics of `re.search(r"(diff --git[\s\S]+)", text)` (line 112):
the leftmost position where the marker matches and is followed by at
least one character; the match group extends to the end of the text. -/
def searchDiff : List Char → Option (List Char)
  | [] => none
  | c :: rest =>
    if startsWithTok marker (c :: rest) && decide (marker.length < (c :: rest).length) then
      some (c :: rest)
    else
      searchDiff rest

/-- The XML-balance block of `extract_diff` (lines 118-123): if the diff
mentions `<Project`, require `</Project>` to occur and the two counts
to agree. -/
def xmlBalanceCheck (diff : List Char) : Except String (List Char) :=
  if pyContains openTag diff then
    if !pyContains closeTag diff then
      Except.error "Incomplete XML in diff (missing </Project>)."
    else if pyCount openTag diff ≠ pyCount closeTag diff then
      Except.error "Mismatched <Project> XML tags in diff."
    else
      Except.ok diff
  else
    Except.ok diff

/-- Definition `extract_diff` (lines 111-125): find the diff marker, take everything
from there to the end, strip it and append a newline, then run the
XML-balance check.  Exceptions are modelled as `Except.error` carrying
the exact message of the raised `ValueError`. -/
def extract_diff (text : List Char) : Except String (List Char) :=
  match searchDiff text with
  | none => Except.error "No git diff found in model output."
  | some m => xmlBalanceCheck (pyStrip m ++ ['\n'])

/-- Lift of `extract_diff` back to `String`, as used by the agent loop. -/
def extractDiffS (text : String) : Except String String :=
  match extract_diff text.data with
  | Except.error e => Except.error e
  | Except.ok d => Except.ok (String.mk d)

/-! ### The agent loop (`generate_and_apply`, lines 209-239, and `main`,
lines 245-274)

The three external calls made inside one attempt of the loop are
abstracted as oracles indexed by the attempt number: `call_ollama` is the
model backend (line 224; an `Except.error` models a raised request
exception), and `git_apply_check` / `git_apply` are the two git
subprocesses (lines 231-232; an `Except.error` models the `RuntimeError`
raised on a non-zero exit).  Extraction (line 227) is the real
`extract_diff` above.  The loop is instrumented with an event trace so
that control-flow properties can be stated: `callBackend` records each
model call with the prompt sent, `applyOk` and `applyFail` record the
outcome of `git_apply` (which mutates the worktree), `reset` records
`hard_reset()` (line 235, `git reset --hard`), `attemptFailed` records
the `last_error` assignment of the except-branch (line 236), and
`testRun` records a `run_tests()` invocation in `main`. -/

structure ExternalEnv where
  call_ollama : Nat → String → Except String String
  git_apply_check : Nat → String → Except String Unit
  git_apply : Nat → String → Except String Unit

inductive Event
  | callBackend (attempt : Nat) (prompt : String)
  | applyOk (diff : String)
  | applyFail
  | reset
  | attemptFailed (attempt : Nat) (errMsg : String)
  | testRun (passed : Bool) (output : String)

/-- Prompt construction of lines 215-221: the task text, plus, when a
previous attempt failed, the single most recent error message wrapped in
the PREVIOUS FAILURE block. -/
def mkPrompt (task : String) (lastError : Option String) : String :=
  match lastError with
  | none => task
  | some e =>
    task ++ "\n\nPREVIOUS FAILURE:\n" ++ e ++
      "\n\nReturn a corrected FULL git diff. Output ONLY the diff."

/-- The body of the `try` block (lines 223-233): backend call, extraction,
apply-check, apply.  On failure it returns the error message (Python
`str(e)`) together with a flag telling whether `git_apply` had already
started mutating the worktree. -/
def attemptStep (env : ExternalEnv) (attempt : Nat) (prompt : String) :
    Except (Bool × String) String :=
  match env.call_ollama attempt prompt with
  | Except.error e => Except.error (false, e)
  | Except.ok raw =>
    match extractDiffS raw with
    | Except.error e => Except.error (false, e)
    | Except.ok diff =>
      match env.git_apply_check attempt diff with
      | Except.error e => Except.error (false, e)
      | Except.ok _ =>
        match env.git_apply attempt diff with
        | Except.error e => Except.error (true, e)
        | Except.ok _ => Except.ok diff

/-- The terminal error message of line 239. -/
def failMsg (maxAttempts : Nat) (lastError : Option String) : String :=
  "Failed after " ++ toString maxAttempts ++ " attempts. Last error: " ++
    (match lastError with | none => "None" | some e => e)

/-- The `for attempt in range(1, MAX_DIFF_ATTEMPTS + 1)` loop of
lines 212-237, as a recursion on the number of remaining iterations.
Returns the event trace together with either the applied diff or the
terminal error of line 239.  On an attempt failure the except-branch
(lines 234-237) runs `hard_reset()` and records the error before the
next iteration. -/
def genLoop (env : ExternalEnv) (maxAttempts : Nat) (task : String) :
    Nat → Nat → Option String → List Event × Except String String
  | _, 0, lastError => ([], Except.error (failMsg maxAttempts lastError))
  | attempt, r + 1, lastError =>
    let prompt := mkPrompt task lastError
    match attemptStep env attempt prompt with
    | Except.ok diff =>
      ([Event.callBackend attempt prompt, Event.applyOk diff], Except.ok diff)
    | Except.error (dirty, e) =>
      let rest := genLoop env maxAttempts task (attempt + 1) r (some e)
      (Event.callBackend attempt prompt ::
        ((if dirty then [Event.applyFail] else []) ++
          Event.reset :: Event.attemptFailed attempt e :: rest.1),
       rest.2)

/-- Function `generate_and_apply(task)` (lines 209-239): the loop starting at
attempt 1 with no previous error. -/
def generate_and_apply (env : ExternalEnv) (maxAttempts : Nat) (task : String) :
    List Event × Except String String :=
  genLoop env maxAttempts task 1 maxAttempts none

/-- Worktree state as seen by the loop: clean, carrying one applied but
unverified diff, or dirtied by a partial apply. -/
inductive Worktree
  | clean
  | applied (diff : String)
  | dirty

def isCleanW : Worktree → Bool
  | Worktree.clean => true
  | _ => false

/-- Effect of one traced event on the worktree. -/
def wtStep : Worktree → Event → Worktree
  | _, Event.reset => Worktree.clean
  | _, Event.applyOk d => Worktree.applied d
  | _, Event.applyFail => Worktree.dirty
  | wt, _ => wt

/-- Replays a trace and checks the worktree discipline: every backend
call (the start of a generation attempt) and every apply happens on a
clean worktree, so at any moment at most one diff sits applied but
unverified. -/
def cleanDiscipline : Worktree → List Event → Bool
  | _, [] => true
  | wt, e :: rest =>
    (match e with
     | Event.callBackend _ _ => isCleanW wt
     | Event.applyOk _ => isCleanW wt
     | _ => true) && cleanDiscipline (wtStep wt e) rest

/-- Checks that every recorded attempt failure is immediately preceded by
a rollback event: the except-branch always runs `hard_reset()` before
recording the error and moving on. -/
def resetBeforeFailLog : List Event → Bool
  | [] => true
  | Event.reset :: Event.attemptFailed _ _ :: rest => resetBeforeFailLog rest
  | Event.attemptFailed _ _ :: _ => false
  | _ :: rest => resetBeforeFailLog rest

def isBackendCall : Event → Bool
  | Event.callBackend _ _ => true
  | _ => false

/-- Number of model backend calls (= generation attempts) in a trace. -/
def numBackendCalls (tr : List Event) : Nat := tr.countP isBackendCall

def isTestRun : Event → Bool
  | Event.testRun _ _ => true
  | _ => false

/-- Number of test-suite invocations in a trace. -/
def countTestRuns (tr : List Event) : Nat := tr.countP isTestRun

/-- External behaviour of one whole `main` run: the oracles seen by the
first `generate_and_apply` call, the first `run_tests()` outcome, the
oracles seen by the repair call, and the second `run_tests()` outcome. -/
structure World where
  gen1 : ExternalEnv
  test1 : Bool × String
  gen2 : ExternalEnv
  test2 : Bool × String

inductive RunOutcome
  | succeeded
  | failed (msg : String)

/-- The test/repair logic of `main` (lines 262-274): generate and apply,
run the tests, and on failure run exactly one repair cycle whose task is
the original task plus the captured test output; a second test failure
raises the terminal error of line 274.  The publication steps of
lines 276-288 (commit, push, pull request) are outside the modelled
core. -/
def mainRun (w : World) (maxAttempts : Nat) (task : String) :
    List Event × RunOutcome :=
  match generate_and_apply w.gen1 maxAttempts task with
  | (tr1, Except.error e) => (tr1, RunOutcome.failed e)
  | (tr1, Except.ok _) =>
    match w.test1 with
    | (true, out) => (tr1 ++ [Event.testRun true out], RunOutcome.succeeded)
    | (false, out) =>
      let fixTask := task ++ "\n\nTEST OUTPUT:\n" ++ out
      match generate_and_apply w.gen2 maxAttempts fixTask with
      | (tr2, Except.error e) =>
        (tr1 ++ Event.testRun false out :: tr2, RunOutcome.failed e)
      | (tr2, Except.ok _) =>
        match w.test2 with
        | (true, out2) =>
          (tr1 ++ Event.testRun false out :: tr2 ++ [Event.testRun true out2],
           RunOutcome.succeeded)
        | (false, out2) =>
          (tr1 ++ Event.testRun false out :: tr2 ++ [Event.testRun false out2],
           RunOutcome.failed
             "Tests still failing after fix. See agent_logs/ for outputs.")

/-! ### The worktree controller (`hard_reset`, lines 82-83)

Modelled from the spec: `hard_reset` shells out to `git reset --hard`,
whose effect on the repository state is specified by the spec as the
`discardAllChanges()` operation of the version-control collaborator:
it discards all uncommitted changes, restoring CLEAN unconditionally.
The worktree is modelled as the committed file snapshot (HEAD) together
with the working copy; `git status --porcelain` reports clean exactly
when the two agree. -/

structure GitWorktree where
  committed : List (String × String)
  working : List (String × String)

/-- The worktree is clean: `git status --porcelain` prints nothing. -/
def gitStatusClean (w : GitWorktree) : Prop := w.working = w.committed

/-- Function `hard_reset()` (lines 82-83): `git reset --hard` restores the working
copy to the committed snapshot. -/
def hard_reset (w : GitWorktree) : GitWorktree := { w with working := w.committed }

/-! ### Concrete oracles used by the witnesses and counterexamples -/

/-- A backend whose every response is unparsable free text. -/
def envUnparsable : ExternalEnv :=
  { call_ollama := fun _ _ => Except.ok "I cannot produce that."
    git_apply_check := fun _ _ => Except.ok ()
    git_apply := fun _ _ => Except.ok () }

/-- A backend that fails outright with a different error per attempt. -/
def envAllFail : ExternalEnv :=
  { call_ollama := fun a _ =>
      Except.error (if a = 1 then "A1" else if a = 2 then "B2" else "C3")
    git_apply_check := fun _ _ => Except.ok ()
    git_apply := fun _ _ => Except.ok () }

/-- A backend that returns a valid diff which checks and applies. -/
def envOkGen : ExternalEnv :=
  { call_ollama := fun _ _ => Except.ok "diff --git a/f b/f\nnew stuff"
    git_apply_check := fun _ _ => Except.ok ()
    git_apply := fun _ _ => Except.ok () }

/-- A world where both the first patch and the repair patch apply cleanly
but the test suite fails both times. -/
def worldTestsFail : World :=
  { gen1 := envOkGen
    test1 := (false, "boom")
    gen2 := envOkGen
    test2 := (false, "boom2") }

/-! ### Sanity checks on the extractor -/

example : extract_diff "no patch here".data =
    Except.error "No git diff found in model output." := rfl

example : extract_diff "ok\ndiff --git a/f b/f\nx \n".data =
    Except.ok "diff --git a/f b/f\nx\n".data := rfl

example : extract_diff "diff --git".data =
    Except.error "No git diff found in model output." := rfl

example : extract_diff "diff --git a\n<Project>\n".data =
    Except.error "Incomplete XML in diff (missing </Project>)." := rfl

example : extract_diff "diff --git a\n<Project>\n<Project>\n</Project>\n".data =
    Except.error "Mismatched <Project> XML tags in diff." := rfl

/-! ### Lemmas about the string layer -/

theorem startsWithTok_iff (pat s : List Char) :
    startsWithTok pat s = true ↔ ∃ t, s = pat ++ t := by
  induction pat generalizing s with
  | nil => simp [startsWithTok]
  | cons p ps ih =>
    cases s with
    | nil => simp [startsWithTok]
    | cons c cs =>
      simp only [startsWithTok, Bool.and_eq_true, beq_iff_eq, ih, List.cons_append,
        List.cons.injEq]
      constructor
      · rintro ⟨rfl, t, rfl⟩; exact ⟨t, rfl, rfl⟩
      · rintro ⟨t, rfl, rfl⟩; exact ⟨rfl, t, rfl⟩

theorem pyContains_nil_pat (s : List Char) : pyContains [] s = true := by
  cases s <;> simp [pyContains, startsWithTok]

theorem pyContains_of_startsWithTok (pat s : List Char)
    (h : startsWithTok pat s = true) : pyContains pat s = true := by
  cases s with
  | nil =>
    cases pat with
    | nil => simp [pyContains]
    | cons p ps => simp [startsWithTok] at h
  | cons c cs => simp [pyContains, h]

theorem pyContains_append_left (pat s l : List Char) (h : pyContains pat s = true) :
    pyContains pat (l ++ s) = true := by
  induction l with
  | nil => simpa
  | cons c l ih => simp [pyContains, ih]

theorem pyContains_append_right (pat s r : List Char) (h : pyContains pat s = true) :
    pyContains pat (s ++ r) = true := by
  induction s with
  | nil =>
    have hp : pat = [] := by
      cases pat with
      | nil => rfl
      | cons p ps => simp [pyContains] at h
    subst hp; exact pyContains_nil_pat r
  | cons c s ih =>
    rw [List.cons_append]
    simp only [pyContains, Bool.or_eq_true] at h ⊢
    rcases h with h | h
    · left
      obtain ⟨t, ht⟩ := (startsWithTok_iff pat (c :: s)).mp h
      refine (startsWithTok_iff _ _).mpr ⟨t ++ r, ?_⟩
      rw [← List.append_assoc, ← ht, List.cons_append]
    · right; exact ih h

theorem pyContains_concat (pat s : List Char) (c : Char)
    (h : pyContains pat (s ++ [c]) = true) :
    (∃ t, pat = t ++ [c]) ∨ pyContains pat s = true := by
  induction s with
  | nil =>
    simp only [List.nil_append] at h
    cases pat with
    | nil => exact Or.inr (pyContains_nil_pat [])
    | cons p ps =>
      simp only [pyContains, Bool.or_eq_true] at h
      rcases h with h | h
      · obtain ⟨t, ht⟩ := (startsWithTok_iff (p :: ps) [c]).mp h
        rw [List.cons_append] at ht
        injection ht with hcp hnil
        obtain ⟨hps, -⟩ := List.append_eq_nil.mp hnil.symm
        exact Or.inl ⟨[], by simp [hps, hcp]⟩
      · simp [pyContains] at h
  | cons a s ih =>
    rw [List.cons_append] at h
    simp only [pyContains, Bool.or_eq_true] at h
    rcases h with h | h
    · obtain ⟨t, ht⟩ := (startsWithTok_iff pat (a :: (s ++ [c]))).mp h
      rcases List.eq_nil_or_concat t with rfl | ⟨t', c', rfl⟩
      · rw [List.append_nil] at ht
        exact Or.inl ⟨a :: s, by rw [← ht]; rfl⟩
      · right
        rw [List.concat_eq_append, ← List.append_assoc] at ht
        have ht2 : (a :: s) ++ [c] = (pat ++ t') ++ [c'] := ht
        have hlen : (a :: s).length = (pat ++ t').length := by
          have := congrArg List.length ht2
          simp only [List.length_append, List.length_cons, List.length_nil] at this ⊢
          omega
        obtain ⟨h3, -⟩ := List.append_inj ht2 hlen
        exact pyContains_of_startsWithTok pat (a :: s)
          ((startsWithTok_iff _ _).mpr ⟨t', h3⟩)
    · rcases ih h with h' | h'
      · exact Or.inl h'
      · exact Or.inr (by simp [pyContains, h'])

theorem searchDiff_of_not_contains (text : List Char)
    (h : pyContains marker text = false) : searchDiff text = none := by
  induction text with
  | nil => rfl
  | cons c rest ih =>
    simp only [pyContains, Bool.or_eq_false_iff] at h
    rw [searchDiff, if_neg, ih h.2]
    simp [h.1]

theorem searchDiff_some (text m : List Char) (h : searchDiff text = some m) :
    ∃ i, m = text.drop i ∧ startsWithTok marker m = true ∧
      marker.length < m.length ∧
      ∀ j, j < i → startsWithTok marker (text.drop j) = false := by
  induction text with
  | nil => simp [searchDiff] at h
  | cons c rest ih =>
    rw [searchDiff] at h
    split at h
    · rename_i hcond
      obtain ⟨h1, h2⟩ := Bool.and_eq_true _ _ |>.mp hcond
      cases h
      exact ⟨0, rfl, h1, of_decide_eq_true h2, fun j hj => absurd hj (Nat.not_lt_zero j)⟩
    · rename_i hcond
      obtain ⟨i, him, hsw, hlen, hfirst⟩ := ih h
      refine ⟨i + 1, by simpa [List.drop_succ_cons] using him, hsw, hlen, ?_⟩
      intro j hj
      cases j with
      | zero =>
        by_cases hs : startsWithTok marker (c :: rest) = true
        · exfalso
          have hlend : ¬ (marker.length < (c :: rest).length) := fun hlt =>
            hcond (by rw [hs, decide_eq_true hlt]; rfl)
          have hm : m.length ≤ rest.length := by
            rw [him, List.length_drop]
            have : rest.length ≤ (c :: rest).length := by simp
            omega
          simp only [List.length_cons] at hlend
          omega
        · simpa using hs
      | succ j' =>
        have := hfirst j' (Nat.lt_of_succ_lt_succ hj)
        simpa [List.drop_succ_cons] using this

theorem pyStrip_startsWith (m : List Char) (h : startsWithTok marker m = true) :
    ∃ r, pyStrip m = marker ++ r := by
  obtain ⟨t, rfl⟩ := (startsWithTok_iff marker m).mp h
  unfold pyStrip
  have h1 : (marker ++ t).dropWhile pySpace = marker ++ t := by
    rw [List.dropWhile_append]
    have hm : marker.dropWhile pySpace = marker := by decide
    rw [hm]
    simp [marker]
  rw [h1, List.reverse_append, List.dropWhile_append]
  by_cases he : (t.reverse.dropWhile pySpace).isEmpty
  · rw [if_pos he]
    have hm : marker.reverse.dropWhile pySpace = marker.reverse := by decide
    rw [hm, List.reverse_reverse]
    exact ⟨[], by simp⟩
  · rw [if_neg he, List.reverse_append, List.reverse_reverse]
    exact ⟨(t.reverse.dropWhile pySpace).reverse, rfl⟩

theorem pyStrip_decomp (s : List Char) : ∃ a b, s = a ++ pyStrip s ++ b := by
  refine ⟨s.takeWhile pySpace,
    ((s.dropWhile pySpace).reverse.takeWhile pySpace).reverse, ?_⟩
  conv_lhs => rw [← List.takeWhile_append_dropWhile (p := pySpace) (l := s)]
  rw [List.append_assoc]
  congr 1
  unfold pyStrip
  calc s.dropWhile pySpace
      = (s.dropWhile pySpace).reverse.reverse := (List.reverse_reverse _).symm
    _ = ((s.dropWhile pySpace).reverse.takeWhile pySpace ++
          (s.dropWhile pySpace).reverse.dropWhile pySpace).reverse := by
        rw [List.takeWhile_append_dropWhile]
    _ = ((s.dropWhile pySpace).reverse.dropWhile pySpace).reverse ++
          ((s.dropWhile pySpace).reverse.takeWhile pySpace).reverse := by
        rw [List.reverse_append]

theorem pyCountAux_pos_iff (pat : List Char) (hp : pat ≠ []) :
    ∀ fuel s, s.length ≤ fuel →
      (0 < pyCountAux pat s fuel ↔ pyContains pat s = true) := by
  intro fuel
  induction fuel with
  | zero =>
    intro s hs
    have hs0 : s = [] := List.eq_nil_of_length_eq_zero (Nat.le_zero.mp hs)
    subst hs0
    cases pat with
    | nil => exact absurd rfl hp
    | cons p ps => simp [pyCountAux, pyContains]
  | succ fuel ih =>
    intro s hs
    cases s with
    | nil =>
      cases pat with
      | nil => exact absurd rfl hp
      | cons p ps => simp [pyCountAux, pyContains]
    | cons c rest =>
      rw [pyCountAux]
      by_cases hsw : startsWithTok pat (c :: rest) = true
      · rw [if_pos hsw]
        simp [pyContains_of_startsWithTok pat _ hsw]
      · rw [if_neg hsw]
        have hres : rest.length ≤ fuel := by
          simp only [List.length_cons] at hs; omega
        rw [ih rest hres]
        simp only [pyContains, Bool.or_eq_true]
        constructor
        · exact Or.inr
        · rintro (h | h)
          · exact absurd h hsw
          · exact h

theorem pyCount_pos_iff (pat s : List Char) (hp : pat ≠ []) :
    0 < pyCount pat s ↔ pyContains pat s = true :=
  pyCountAux_pos_iff pat hp s.length s (Nat.le_refl _)

theorem xmlBalanceCheck_ok (x d : List Char)
    (h : xmlBalanceCheck x = Except.ok d) : d = x := by
  unfold xmlBalanceCheck at h
  split at h
  · split at h
    · cases h
    · split at h
      · cases h
      · cases h; rfl
  · cases h; rfl

theorem extract_diff_ok (text diff : List Char)
    (h : extract_diff text = Except.ok diff) :
    ∃ m, searchDiff text = some m ∧ diff = pyStrip m ++ ['\n'] := by
  unfold extract_diff at h
  cases hs : searchDiff text with
  | none => rw [hs] at h; cases h
  | some m => rw [hs] at h; exact ⟨m, rfl, xmlBalanceCheck_ok _ _ h⟩

/-! ### Lemmas about the agent loop -/

theorem genLoop_succ_ok (env : ExternalEnv) (maxA : Nat) (task : String)
    (a r : Nat) (lastError : Option String) (diff : String)
    (h : attemptStep env a (mkPrompt task lastError) = Except.ok diff) :
    genLoop env maxA task a (r + 1) lastError =
      ([Event.callBackend a (mkPrompt task lastError), Event.applyOk diff],
       Except.ok diff) := by
  simp [genLoop, h]

theorem genLoop_succ_err (env : ExternalEnv) (maxA : Nat) (task : String)
    (a r : Nat) (lastError : Option String) (dirty : Bool) (e : String)
    (h : attemptStep env a (mkPrompt task lastError) = Except.error (dirty, e)) :
    genLoop env maxA task a (r + 1) lastError =
      (Event.callBackend a (mkPrompt task lastError) ::
        ((if dirty then [Event.applyFail] else []) ++
          Event.reset :: Event.attemptFailed a e ::
            (genLoop env maxA task (a + 1) r (some e)).1),
       (genLoop env maxA task (a + 1) r (some e)).2) := by
  simp [genLoop, h]

theorem genLoop_cleanDiscipline (env : ExternalEnv) (maxA : Nat) (task : String) :
    ∀ r a lastError,
      cleanDiscipline Worktree.clean (genLoop env maxA task a r lastError).1 = true := by
  intro r
  induction r with
  | zero => intro a lastError; rfl
  | succ r ih =>
    intro a lastError
    cases hstep : attemptStep env a (mkPrompt task lastError) with
    | ok diff =>
      rw [genLoop_succ_ok env maxA task a r lastError diff hstep]
      rfl
    | error pe =>
      obtain ⟨dirty, e⟩ := pe
      rw [genLoop_succ_err env maxA task a r lastError dirty e hstep]
      cases dirty <;>
        simpa [cleanDiscipline, wtStep, isCleanW] using ih (a + 1) (some e)

theorem genLoop_resetBeforeFailLog (env : ExternalEnv) (maxA : Nat) (task : String) :
    ∀ r a lastError,
      resetBeforeFailLog (genLoop env maxA task a r lastError).1 = true := by
  intro r
  induction r with
  | zero => intro a lastError; rfl
  | succ r ih =>
    intro a lastError
    cases hstep : attemptStep env a (mkPrompt task lastError) with
    | ok diff =>
      rw [genLoop_succ_ok env maxA task a r lastError diff hstep]
      rfl
    | error pe =>
      obtain ⟨dirty, e⟩ := pe
      rw [genLoop_succ_err env maxA task a r lastError dirty e hstep]
      cases dirty <;>
        simpa [resetBeforeFailLog] using ih (a + 1) (some e)

theorem genLoop_terminal_reset (env : ExternalEnv) (maxA : Nat) (task : String) :
    ∀ r a lastError e, 1 ≤ r →
      (genLoop env maxA task a r lastError).2 = Except.error e →
      List.foldl wtStep Worktree.clean (genLoop env maxA task a r lastError).1 =
        Worktree.clean ∧
      ∃ tr pa msg, (genLoop env maxA task a r lastError).1 =
        tr ++ [Event.reset, Event.attemptFailed pa msg] := by
  intro r
  induction r with
  | zero => intro a lastError e h; omega
  | succ r ih =>
    intro a lastError e _ herr
    cases hstep : attemptStep env a (mkPrompt task lastError) with
    | ok diff =>
      rw [genLoop_succ_ok env maxA task a r lastError diff hstep] at herr
      cases herr
    | error pe =>
      obtain ⟨dirty, msg⟩ := pe
      rw [genLoop_succ_err env maxA task a r lastError dirty msg hstep] at herr ⊢
      cases r with
      | zero =>
        refine ⟨by cases dirty <;> simp [genLoop, wtStep], ?_⟩
        cases dirty with
        | false =>
          exact ⟨[Event.callBackend a (mkPrompt task lastError)], a, msg,
            by simp [genLoop]⟩
        | true =>
          exact ⟨[Event.callBackend a (mkPrompt task lastError), Event.applyFail],
            a, msg, by simp [genLoop]⟩
      | succ r' =>
        have herr' : (genLoop env maxA task (a + 1) (r' + 1) (some msg)).2 =
            Except.error e := herr
        obtain ⟨hfold, tr, pa, m2, hdec⟩ :=
          ih (a + 1) (some msg) e (by omega) herr'
        constructor
        · cases dirty <;> simpa [wtStep] using hfold
        · refine ⟨Event.callBackend a (mkPrompt task lastError) ::
            ((if dirty then [Event.applyFail] else []) ++
              Event.reset :: Event.attemptFailed a msg :: tr), pa, m2, ?_⟩
          cases dirty <;> simp [hdec]

theorem split_no_cb :
    ∀ (fixed : List Event), (∀ x ∈ fixed, isBackendCall x = false) →
      ∀ (t pre post : List Event) (b : Nat) (p : String),
        pre ++ Event.callBackend b p :: post = fixed ++ t →
        ∃ pre2, pre = fixed ++ pre2 ∧ t = pre2 ++ Event.callBackend b p :: post := by
  intro fixed
  induction fixed with
  | nil =>
    intro _ t pre post b p h
    exact ⟨pre, rfl, h.symm⟩
  | cons f fs ih =>
    intro hfix t pre post b p h
    cases pre with
    | nil =>
      rw [List.nil_append, List.cons_append] at h
      injection h with h1 h2
      have := hfix f (List.mem_cons_self f fs)
      rw [← h1] at this
      simp [isBackendCall] at this
    | cons q pre' =>
      rw [List.cons_append, List.cons_append] at h
      injection h with h1 h2
      obtain ⟨pre2, hpre, ht⟩ :=
        ih (fun x hx => hfix x (List.mem_cons_of_mem f hx)) t pre' post b p h2
      exact ⟨pre2, by rw [List.cons_append, h1, hpre], ht⟩

theorem genLoop_prompt_shape (env : ExternalEnv) (maxA : Nat) (task : String) :
    ∀ r a lastError pre b p post,
      (genLoop env maxA task a r lastError).1 =
        pre ++ Event.callBackend b p :: post →
      (pre = [] ∧ b = a ∧ p = mkPrompt task lastError) ∨
      (∃ pre2 e, pre = pre2 ++ [Event.reset, Event.attemptFailed (b - 1) e] ∧
        p = mkPrompt task (some e)) := by
  intro r
  induction r with
  | zero =>
    intro a lastError pre b p post h
    rw [genLoop] at h
    exact absurd h.symm (List.append_ne_nil_of_right_ne_nil pre (List.cons_ne_nil _ _))
  | succ r ih =>
    intro a lastError pre b p post h
    cases hstep : attemptStep env a (mkPrompt task lastError) with
    | ok diff =>
      rw [genLoop_succ_ok env maxA task a r lastError diff hstep] at h
      simp only at h
      cases pre with
      | nil =>
        rw [List.nil_append] at h
        injection h with h1 h2
        injection h1 with hb hp
        exact Or.inl ⟨rfl, hb.symm, hp.symm⟩
      | cons q pre' =>
        rw [List.cons_append] at h
        injection h with h1 h2
        cases pre' with
        | nil =>
          rw [List.nil_append] at h2
          injection h2 with h3 h4
          cases h3
        | cons q2 pre'' =>
          rw [List.cons_append] at h2
          injection h2 with h3 h4
          exact absurd h4.symm (List.append_ne_nil_of_right_ne_nil _ (List.cons_ne_nil _ _))
    | error pe =>
      obtain ⟨dirty, e⟩ := pe
      rw [genLoop_succ_err env maxA task a r lastError dirty e hstep] at h
      simp only at h
      cases pre with
      | nil =>
        rw [List.nil_append] at h
        injection h with h1 h2
        injection h1 with hb hp
        exact Or.inl ⟨rfl, hb.symm, hp.symm⟩
      | cons q pre' =>
        rw [List.cons_append] at h
        injection h with h1 h2
        have hshape : pre' ++ Event.callBackend b p :: post =
            ((if dirty then [Event.applyFail] else []) ++
              [Event.reset, Event.attemptFailed a e]) ++
              (genLoop env maxA task (a + 1) r (some e)).1 := by
          rw [List.append_assoc]
          exact h2.symm
        have hfix : ∀ x ∈ (if dirty then [Event.applyFail] else []) ++
            [Event.reset, Event.attemptFailed a e], isBackendCall x = false := by
          intro x hx
          cases dirty <;> simp at hx <;>
            rcases hx with rfl | rfl | rfl <;> rfl
        obtain ⟨pre2, hpre, ht⟩ :=
          split_no_cb _ hfix _ pre' post b p hshape
        rcases ih (a + 1) (some e) pre2 b p post ht with
          ⟨hpre2, hb, hp⟩ | ⟨pre3, e', hpre3, hp⟩
        · subst hpre2
          rw [List.append_nil] at hpre
          refine Or.inr ⟨Event.callBackend a (mkPrompt task lastError) ::
            (if dirty then [Event.applyFail] else []), e, ?_, ?_⟩
          · rw [h1, hpre]
            subst hb
            simp [Nat.add_sub_cancel]
          · subst hb; simpa [Nat.add_sub_cancel] using hp
        · refine Or.inr ⟨Event.callBackend a (mkPrompt task lastError) ::
            (((if dirty then [Event.applyFail] else []) ++
              [Event.reset, Event.attemptFailed a e]) ++ pre3), e', ?_, hp⟩
          rw [h1, hpre, hpre3]
          simp

theorem genLoop_no_testRun (env : ExternalEnv) (maxA : Nat) (task : String) :
    ∀ r a lastError, countTestRuns (genLoop env maxA task a r lastError).1 = 0 := by
  intro r
  induction r with
  | zero => intro a lastError; rfl
  | succ r ih =>
    intro a lastError
    cases hstep : attemptStep env a (mkPrompt task lastError) with
    | ok diff =>
      rw [genLoop_succ_ok env maxA task a r lastError diff hstep]
      rfl
    | error pe =>
      obtain ⟨dirty, e⟩ := pe
      rw [genLoop_succ_err env maxA task a r lastError dirty e hstep]
      cases dirty <;>
        simpa [countTestRuns, List.countP_cons, List.countP_append, isTestRun]
          using ih (a + 1) (some e)

theorem gaa_no_testRun (env : ExternalEnv) (maxA : Nat) (task : String) :
    countTestRuns (generate_and_apply env maxA task).1 = 0 :=
  genLoop_no_testRun env maxA task maxA 1 none

theorem gaa_ok_head (env : ExternalEnv) (maxA : Nat) (task d : String)
    (h : (generate_and_apply env maxA task).2 = Except.ok d) :
    ∃ tr, (generate_and_apply env maxA task).1 =
      Event.callBackend 1 task :: tr := by
  unfold generate_and_apply at h ⊢
  cases maxA with
  | zero => rw [genLoop] at h; cases h
  | succ m =>
    cases hstep : attemptStep env 1 (mkPrompt task none) with
    | ok diff =>
      rw [genLoop_succ_ok env (m + 1) task 1 m none diff hstep]
      exact ⟨_, rfl⟩
    | error pe =>
      obtain ⟨dirty, e⟩ := pe
      rw [genLoop_succ_err env (m + 1) task 1 m none dirty e hstep]
      exact ⟨_, rfl⟩

theorem numBackendCalls_cons_cb (a : Nat) (p : String) (tr : List Event) :
    numBackendCalls (Event.callBackend a p :: tr) = numBackendCalls tr + 1 := by
  simp [numBackendCalls, List.countP_cons, isBackendCall]

theorem numBackendCalls_cons_other (e : Event) (tr : List Event)
    (h : isBackendCall e = false) :
    numBackendCalls (e :: tr) = numBackendCalls tr := by
  simp [numBackendCalls, List.countP_cons, h]

theorem genLoop_all_unparsable (env : ExternalEnv) (raws errs : Nat → String)
    (hb : ∀ a p, env.call_ollama a p = Except.ok (raws a))
    (he : ∀ a, extractDiffS (raws a) = Except.error (errs a))
    (maxA : Nat) (task : String) :
    ∀ r a lastError,
      (genLoop env maxA task a r lastError).2 =
        Except.error (failMsg maxA
          (if r = 0 then lastError else some (errs (a + r - 1)))) ∧
      numBackendCalls (genLoop env maxA task a r lastError).1 = r := by
  intro r
  induction r with
  | zero => intro a lastError; exact ⟨rfl, rfl⟩
  | succ r ih =>
    intro a lastError
    have hstep : attemptStep env a (mkPrompt task lastError) =
        Except.error (false, errs a) := by
      simp only [attemptStep, hb, he]
    rw [genLoop_succ_err env maxA task a r lastError false (errs a) hstep]
    obtain ⟨ih1, ih2⟩ := ih (a + 1) (some (errs a))
    constructor
    · rw [ih1]
      cases r with
      | zero => simp
      | succ r' =>
        simp only [Nat.succ_ne_zero, if_false, Nat.add_succ_sub_one]
        have h5 : a + 1 + r' = a + (r' + 1) := by omega
        rw [h5]
    · have hr : numBackendCalls (Event.reset :: Event.attemptFailed a (errs a) ::
          (genLoop env maxA task (a + 1) r (some (errs a))).1) = r := by
        rw [numBackendCalls_cons_other Event.reset _ rfl,
          numBackendCalls_cons_other (Event.attemptFailed a (errs a)) _ rfl, ih2]
      simp [numBackendCalls_cons_cb, hr]

/-! ### Claims about the extractor and validator -/

/-- C4 (amended): every input without the diff-start marker fails with the
extraction error; whenever extraction succeeds, the returned text is the
tail of the input starting exactly at the first occurrence of the marker,
trimmed and newline-terminated, and begins with the marker.  (As stated
the claim is false: extraction can also fail on inputs that do contain
the marker, namely when no character follows it or when the XML balance
check rejects the tail; see the counterexample.) -/
theorem C4_extractor_contract (text : List Char) :
    (pyContains marker text = false →
      extract_diff text = Except.error "No git diff found in model output.") ∧
    (∀ diff, extract_diff text = Except.ok diff →
      ∃ i, startsWithTok marker (text.drop i) = true ∧
        (∀ j, j < i → startsWithTok marker (text.drop j) = false) ∧
        diff = pyStrip (text.drop i) ++ ['\n'] ∧
        (∃ r, diff = marker ++ r) ∧
        diff.getLast? = some '\n') := by
  constructor
  · intro h
    unfold extract_diff
    rw [searchDiff_of_not_contains text h]
  · intro diff h
    obtain ⟨m, hm, hdiff⟩ := extract_diff_ok text diff h
    obtain ⟨i, him, hsw, hlen, hfirst⟩ := searchDiff_some text m hm
    subst him
    obtain ⟨r, hr⟩ := pyStrip_startsWith _ hsw
    refine ⟨i, hsw, hfirst, hdiff,
      ⟨r ++ ['\n'], by rw [hdiff, hr, List.append_assoc]⟩, ?_⟩
    rw [hdiff]
    exact List.getLast?_concat _

/-- C4 counterexample: the input consisting of exactly the marker does
contain the diff-start marker, yet extraction fails (the regex requires
at least one character after the marker), so no returned text exists. -/
theorem C4_counterexample :
    pyContains marker "diff --git".data = true ∧
    extract_diff "diff --git".data =
      Except.error "No git diff found in model output." := ⟨rfl, rfl⟩

/-- C4 witness: the amended theorem applied to concrete inputs. -/
theorem C4_witness :
    (extract_diff "The model did not comply.".data =
      Except.error "No git diff found in model output.") ∧
    (∃ i, startsWithTok marker (("x diff --git a".data).drop i) = true ∧
      (∀ j, j < i → startsWithTok marker (("x diff --git a".data).drop j) = false) ∧
      "diff --git a\n".data = pyStrip (("x diff --git a".data).drop i) ++ ['\n'] ∧
      (∃ r, "diff --git a\n".data = marker ++ r) ∧
      ("diff --git a\n".data).getLast? = some '\n') :=
  ⟨(C4_extractor_contract _).1 rfl,
   (C4_extractor_contract "x diff --git a".data).2 "diff --git a\n".data rfl⟩

/-- C5 (amended): the extractor performs no minimum-length check at all.
The only lower bound on an accepted diff is structural: it always starts
with the 10-byte marker and ends with a newline, hence has at least 11
bytes; beyond that, arbitrarily short junk diffs (for example 12 bytes)
are accepted and passed on to the apply-check. -/
theorem C5_no_minimum_length_check :
    (∀ text diff, extract_diff text = Except.ok diff →
      marker.length + 1 ≤ diff.length ∧ ∃ r, diff = marker ++ r) ∧
    extract_diff "diff --gitx".data = Except.ok "diff --gitx\n".data := by
  constructor
  · intro text diff h
    obtain ⟨m, hm, hdiff⟩ := extract_diff_ok text diff h
    obtain ⟨i, him, hsw, hlen, hfirst⟩ := searchDiff_some text m hm
    obtain ⟨r, hr⟩ := pyStrip_startsWith _ hsw
    constructor
    · rw [hdiff, hr]
      simp only [List.append_assoc, List.length_append, List.length_cons,
        List.length_nil]
      omega
    · exact ⟨r ++ ['\n'], by rw [hdiff, hr, List.append_assoc]⟩
  · rfl

/-- C5 counterexample: a 13-byte nonsense diff is accepted by the
extractor and validator rather than rejected with a malformed-patch
error, so no small-byte-threshold minimum-length check exists. -/
theorem C5_counterexample :
    extract_diff "diff --gitty".data = Except.ok "diff --gitty\n".data ∧
    ("diff --gitty\n".data).length = 13 := ⟨rfl, rfl⟩

/-- C5 witness: the amended theorem applied to a concrete accepted diff. -/
theorem C5_witness :
    marker.length + 1 ≤ ("diff --gitx\n".data).length ∧
    ∃ r, "diff --gitx\n".data = marker ++ r :=
  C5_no_minimum_length_check.1 "diff --gitx".data "diff --gitx\n".data rfl

/-- C6: for every diff containing the structured-file open marker
`<Project`, the validator accepts the diff if and only if the number of
open markers equals the number of close markers; in particular a diff
with 2 open markers and 1 close marker is rejected with the error naming
the mismatched `<Project>` marker. -/
theorem C6_marker_balance :
    (∀ diff : List Char, pyContains openTag diff = true →
      ((∃ d, xmlBalanceCheck diff = Except.ok d) ↔
        pyCount openTag diff = pyCount closeTag diff)) ∧
    xmlBalanceCheck
        "diff --git a/A.csproj b/A.csproj\n<Project>\n<Project>\n</Project>\n".data =
      Except.error "Mismatched <Project> XML tags in diff." := by
  constructor
  · intro diff hopen
    constructor
    · rintro ⟨d, hd⟩
      unfold xmlBalanceCheck at hd
      rw [if_pos hopen] at hd
      split at hd
      · cases hd
      · split at hd
        · cases hd
        · rename_i hne
          exact not_not.mp hne
    · intro hcnt
      have h1 : 0 < pyCount openTag diff :=
        (pyCount_pos_iff _ _ (by decide)).mpr hopen
      have h2 : 0 < pyCount closeTag diff := hcnt ▸ h1
      have hclose : pyContains closeTag diff = true :=
        (pyCount_pos_iff _ _ (by decide)).mp h2
      refine ⟨diff, ?_⟩
      unfold xmlBalanceCheck
      rw [if_pos hopen, if_neg (by simp [hclose]), if_neg (fun hne => hne hcnt)]
  · rfl

/-- C6 witness: a balanced diff (1 open, 1 close) is accepted. -/
theorem C6_witness :
    ∃ d, xmlBalanceCheck "<Project>ok</Project>".data = Except.ok d :=
  (C6_marker_balance.1 "<Project>ok</Project>".data rfl).mpr rfl

/-- C10 (amended): whenever the regex search finds the marker (first
occurrence, at least one character after it) and the matched tail does
not contain the open marker `<Project`, extraction succeeds: the balance
check is only ever triggered by the presence of an open marker.  (As
stated the claim is false for inputs whose marker occurrence is at the
very end of the text; see the counterexample.) -/
theorem C10_no_open_marker_extraction_succeeds (text m : List Char)
    (h1 : searchDiff text = some m) (h2 : pyContains openTag m = false) :
    extract_diff text = Except.ok (pyStrip m ++ ['\n']) := by
  have hno : pyContains openTag (pyStrip m ++ ['\n']) = false := by
    by_contra hcon
    rw [Bool.not_eq_false] at hcon
    rcases pyContains_concat openTag (pyStrip m) '\n' hcon with ⟨t, ht⟩ | hin
    · have hlast := congrArg List.getLast? ht
      rw [List.getLast?_concat] at hlast
      exact absurd hlast (by decide)
    · obtain ⟨a, b, hab⟩ := pyStrip_decomp m
      have h3 : pyContains openTag (pyStrip m ++ b) = true :=
        pyContains_append_right _ _ _ hin
      have h4 : pyContains openTag (a ++ (pyStrip m ++ b)) = true :=
        pyContains_append_left _ _ _ h3
      rw [← List.append_assoc, ← hab] at h4
      rw [h4] at h2
      cases h2
  have hx : xmlBalanceCheck (pyStrip m ++ ['\n']) =
      Except.ok (pyStrip m ++ ['\n']) := by
    unfold xmlBalanceCheck
    rw [if_neg (by simp [hno])]
  unfold extract_diff
  rw [h1]
  exact hx

/-- C10 counterexample: an input that contains the marker and whose tail
from the marker onward contains no open marker, yet extraction fails,
because the marker occurrence is at the end of the text. -/
theorem C10_counterexample :
    pyContains marker "x diff --git".data = true ∧
    pyContains openTag "x diff --git".data = false ∧
    extract_diff "x diff --git".data =
      Except.error "No git diff found in model output." := ⟨rfl, rfl, rfl⟩

/-- C10 witness: the amended theorem applied to a concrete input. -/
theorem C10_witness :
    extract_diff "junk diff --git a/f\nbody".data =
      Except.ok (pyStrip "diff --git a/f\nbody".data ++ ['\n']) :=
  C10_no_open_marker_extraction_succeeds _ "diff --git a/f\nbody".data rfl rfl

/-! ### Claims about the agent loop -/

/-- C1: in every run of `generate_and_apply`, replaying the trace from a
clean worktree shows that every generation attempt starts, and every
apply happens, on a clean worktree (so at most one diff is ever applied
but unverified), and every recorded attempt failure is immediately
preceded by the rollback event of `hard_reset()`. -/
theorem C1_worktree_rollback_discipline (env : ExternalEnv) (maxAttempts : Nat)
    (task : String) :
    cleanDiscipline Worktree.clean (generate_and_apply env maxAttempts task).1 = true ∧
    resetBeforeFailLog (generate_and_apply env maxAttempts task).1 = true :=
  ⟨genLoop_cleanDiscipline env maxAttempts task maxAttempts 1 none,
   genLoop_resetBeforeFailLog env maxAttempts task maxAttempts 1 none⟩

/-- C2: with `MAX_DIFF_ATTEMPTS = 3` and a backend whose every response is
returned but unparsable (extraction fails each time), `generate_and_apply`
makes exactly 3 backend calls and terminates with the error of line 239
carrying the last observed error message. -/
theorem C2_bounded_retries (env : ExternalEnv) (raws errs : Nat → String)
    (hb : ∀ a p, env.call_ollama a p = Except.ok (raws a))
    (he : ∀ a, extractDiffS (raws a) = Except.error (errs a)) (task : String) :
    numBackendCalls (generate_and_apply env 3 task).1 = 3 ∧
    (generate_and_apply env 3 task).2 =
      Except.error ("Failed after 3 attempts. Last error: " ++ errs 3) := by
  obtain ⟨h1, h2⟩ := genLoop_all_unparsable env raws errs hb he 3 task 3 1 none
  refine ⟨h2, ?_⟩
  show (genLoop env 3 task 1 3 none).2 = _
  rw [h1]
  congr 1

/-- C2 witness: a concrete backend always answering refusal text. -/
theorem C2_witness :
    numBackendCalls (generate_and_apply envUnparsable 3 "add a Clamp function").1 = 3 ∧
    (generate_and_apply envUnparsable 3 "add a Clamp function").2 =
      Except.error ("Failed after 3 attempts. Last error: " ++
        "No git diff found in model output.") :=
  C2_bounded_retries envUnparsable (fun _ => "I cannot produce that.")
    (fun _ => "No git diff found in model output.")
    (fun _ _ => rfl) (fun _ => rfl) "add a Clamp function"

/-- C3: when the first patch applies but the tests fail, and the repair
patch also applies but the tests fail again, the run ends failed with the
terminal message of line 274 after exactly two test invocations (one
repair sub-loop); the repair loop is re-entered with the original task
text plus the captured test output as its prompt, starting again at
attempt 1. -/
theorem C3_single_repair_subloop (w : World) (maxAttempts : Nat)
    (task d1 d2 out out2 : String)
    (h1 : (generate_and_apply w.gen1 maxAttempts task).2 = Except.ok d1)
    (ht1 : w.test1 = (false, out))
    (h2 : (generate_and_apply w.gen2 maxAttempts
      (task ++ "\n\nTEST OUTPUT:\n" ++ out)).2 = Except.ok d2)
    (ht2 : w.test2 = (false, out2)) :
    (mainRun w maxAttempts task).2 =
      RunOutcome.failed "Tests still failing after fix. See agent_logs/ for outputs." ∧
    countTestRuns (mainRun w maxAttempts task).1 = 2 ∧
    (∃ tr, (generate_and_apply w.gen2 maxAttempts
        (task ++ "\n\nTEST OUTPUT:\n" ++ out)).1 =
      Event.callBackend 1 (task ++ "\n\nTEST OUTPUT:\n" ++ out) :: tr) := by
  rcases hA : generate_and_apply w.gen1 maxAttempts task with ⟨tr1, res1⟩
  rcases hB : generate_and_apply w.gen2 maxAttempts
      (task ++ "\n\nTEST OUTPUT:\n" ++ out) with ⟨tr2, res2⟩
  have h1' := h1
  have h2' := h2
  rw [hA] at h1'
  rw [hB] at h2'
  simp only at h1' h2'
  subst h1'
  subst h2'
  have hmain : mainRun w maxAttempts task =
      (tr1 ++ Event.testRun false out :: tr2 ++ [Event.testRun false out2],
       RunOutcome.failed
         "Tests still failing after fix. See agent_logs/ for outputs.") := by
    simp only [mainRun, hA, ht1, hB, ht2]
  have h3 := gaa_ok_head w.gen2 maxAttempts
    (task ++ "\n\nTEST OUTPUT:\n" ++ out) d2 h2
  rw [hB] at h3
  refine ⟨by rw [hmain], ?_, h3⟩
  rw [hmain]
  have g1 : countTestRuns tr1 = 0 := by
    have hg := gaa_no_testRun w.gen1 maxAttempts task
    rw [hA] at hg; exact hg
  have g2 : countTestRuns tr2 = 0 := by
    have hg := gaa_no_testRun w.gen2 maxAttempts
      (task ++ "\n\nTEST OUTPUT:\n" ++ out)
    rw [hB] at hg; exact hg
  simp only [countTestRuns, List.countP_append, List.countP_cons] at g1 g2 ⊢
  simp [isTestRun, g1, g2]

/-- C3 witness: a concrete world whose generated patches apply cleanly
while the tests fail before and after the repair. -/
theorem C3_witness :
    (mainRun worldTestsFail 3 "T").2 =
      RunOutcome.failed "Tests still failing after fix. See agent_logs/ for outputs." ∧
    countTestRuns (mainRun worldTestsFail 3 "T").1 = 2 ∧
    (∃ tr, (generate_and_apply worldTestsFail.gen2 3
        ("T" ++ "\n\nTEST OUTPUT:\n" ++ "boom")).1 =
      Event.callBackend 1 ("T" ++ "\n\nTEST OUTPUT:\n" ++ "boom") :: tr) :=
  C3_single_repair_subloop worldTestsFail 3 "T"
    "diff --git a/f b/f\nnew stuff\n" "diff --git a/f b/f\nnew stuff\n"
    "boom" "boom2" rfl rfl rfl rfl

/-- C7 (amended): in every run of `generate_and_apply`, the prompt of each
backend call is either the bare task text (first attempt) or the task
text plus the single most recent failure message, wrapped in the
PREVIOUS FAILURE block; the preceding events in the trace are exactly a
rollback followed by the record of that most recent failure.  (As stated
the claim is false: the prompt does not accumulate the error context of
all prior failed attempts, only the last one; see the counterexample.) -/
theorem C7_prompt_carries_only_last_error (env : ExternalEnv) (maxAttempts : Nat)
    (task : String) (pre post : List Event) (b : Nat) (p : String)
    (h : (generate_and_apply env maxAttempts task).1 =
      pre ++ Event.callBackend b p :: post) :
    (pre = [] ∧ b = 1 ∧ p = task) ∨
    (∃ pre2 e, pre = pre2 ++ [Event.reset, Event.attemptFailed (b - 1) e] ∧
      p = task ++ "\n\nPREVIOUS FAILURE:\n" ++ e ++
        "\n\nReturn a corrected FULL git diff. Output ONLY the diff.") := by
  have hres := genLoop_prompt_shape env maxAttempts task maxAttempts 1 none
    pre b p post h
  simpa [mkPrompt] using hres

/-- C7 counterexample: with a backend failing as A1, B2, C3 on the three
attempts, the third prompt contains only the most recent error B2 and
not the earlier error A1, so the prompt is not the accumulation of all
prior failures. -/
theorem C7_counterexample :
    (generate_and_apply envAllFail 3 "T").1 =
      [Event.callBackend 1 "T", Event.reset, Event.attemptFailed 1 "A1",
       Event.callBackend 2
         "T\n\nPREVIOUS FAILURE:\nA1\n\nReturn a corrected FULL git diff. Output ONLY the diff.",
       Event.reset, Event.attemptFailed 2 "B2",
       Event.callBackend 3
         "T\n\nPREVIOUS FAILURE:\nB2\n\nReturn a corrected FULL git diff. Output ONLY the diff.",
       Event.reset, Event.attemptFailed 3 "C3"] ∧
    pyContains "A1".data
      "T\n\nPREVIOUS FAILURE:\nB2\n\nReturn a corrected FULL git diff. Output ONLY the diff.".data =
      false := ⟨rfl, rfl⟩

/-- C7 witness: the amended theorem applied to the second backend call of
the concrete failing run, exhibiting the PREVIOUS FAILURE block holding
exactly the first error. -/
theorem C7_witness :
    ([Event.callBackend 1 "T", Event.reset, Event.attemptFailed 1 "A1"] =
        ([] : List Event) ∧ (2 : Nat) = 1 ∧
      "T\n\nPREVIOUS FAILURE:\nA1\n\nReturn a corrected FULL git diff. Output ONLY the diff." =
        "T") ∨
    (∃ pre2 e, [Event.callBackend 1 "T", Event.reset, Event.attemptFailed 1 "A1"] =
        pre2 ++ [Event.reset, Event.attemptFailed (2 - 1) e] ∧
      "T\n\nPREVIOUS FAILURE:\nA1\n\nReturn a corrected FULL git diff. Output ONLY the diff." =
        "T" ++ "\n\nPREVIOUS FAILURE:\n" ++ e ++
          "\n\nReturn a corrected FULL git diff. Output ONLY the diff.") :=
  C7_prompt_carries_only_last_error envAllFail 3 "T"
    [Event.callBackend 1 "T", Event.reset, Event.attemptFailed 1 "A1"]
    [Event.reset, Event.attemptFailed 2 "B2",
     Event.callBackend 3
       "T\n\nPREVIOUS FAILURE:\nB2\n\nReturn a corrected FULL git diff. Output ONLY the diff.",
     Event.reset, Event.attemptFailed 3 "C3"]
    2
    "T\n\nPREVIOUS FAILURE:\nA1\n\nReturn a corrected FULL git diff. Output ONLY the diff."
    rfl

/-- C8: `hard_reset` is idempotent: resetting twice equals resetting
once, the worktree is clean after every reset, and resetting an already
clean worktree is a no-op preserving the worktree state. -/
theorem C8_rollback_idempotent (w : GitWorktree) :
    hard_reset (hard_reset w) = hard_reset w ∧
    gitStatusClean (hard_reset w) ∧
    gitStatusClean (hard_reset (hard_reset w)) ∧
    (gitStatusClean w → hard_reset w = w) := by
  refine ⟨rfl, rfl, rfl, fun h => ?_⟩
  cases w with
  | mk committed working =>
    simp only [gitStatusClean] at h
    simp [hard_reset, h]

/-- C8 witness: a concrete clean worktree is untouched by a reset. -/
theorem C8_witness :
    gitStatusClean
      { committed := [("Program.cs", "class P")]
        working := [("Program.cs", "class P")] } ∧
    hard_reset
      { committed := [("Program.cs", "class P")]
        working := [("Program.cs", "class P")] } =
      { committed := [("Program.cs", "class P")]
        working := [("Program.cs", "class P")] } :=
  ⟨rfl, (C8_rollback_idempotent _).2.2.2 rfl⟩

/-- C9: when `generate_and_apply` exhausts its retry ceiling and raises
the terminal error, the trace ends with a rollback followed by the
record of the final failure, and replaying the whole trace from a clean
worktree ends clean: the terminal failed state leaves no partially
applied changes. -/
theorem C9_terminal_failure_leaves_clean (env : ExternalEnv) (maxAttempts : Nat)
    (task e : String) (hmax : 1 ≤ maxAttempts)
    (herr : (generate_and_apply env maxAttempts task).2 = Except.error e) :
    List.foldl wtStep Worktree.clean (generate_and_apply env maxAttempts task).1 =
      Worktree.clean ∧
    ∃ tr a msg, (generate_and_apply env maxAttempts task).1 =
      tr ++ [Event.reset, Event.attemptFailed a msg] :=
  genLoop_terminal_reset env maxAttempts task maxAttempts 1 none e hmax herr

/-- C9 witness: the theorem applied to a concrete always-failing run. -/
theorem C9_witness :
    List.foldl wtStep Worktree.clean (generate_and_apply envAllFail 3 "T").1 =
      Worktree.clean ∧
    ∃ tr a msg, (generate_and_apply envAllFail 3 "T").1 =
      tr ++ [Event.reset, Event.attemptFailed a msg] :=
  C9_terminal_failure_leaves_clean envAllFail 3 "T"
    "Failed after 3 attempts. Last error: C3" (by omega) rfl

end TrainAI
